import Mathlib

/-!
Shallow embedding of the sprint-resolution and progress-analytics core of the
`jira-sprint-summary` MCP server (class `JiraSprintManager` and the prompt
builders of `SprintAnalyzer`), together with proofs of the specified
properties.

Numbers: JavaScript numbers that hold story points and derived ratios are
modelled as exact rationals (`ℚ`); timestamps and day counts as `Int`
(milliseconds since epoch).  `Math.round x` in JavaScript is
`⌊x + 1/2⌋` on finite inputs, which is exactly Mathlib's `round` on `ℚ`.
`Math.floor` of an exact quotient is `Int.fdiv`.  A JavaScript division whose
divisor is `0` produces a non-finite value (`NaN` or `±Infinity`); where the
source can hit that case the result is modelled as an `Option` with `none`
standing for the non-finite value.
-/

/-- An issue as read by the aggregation loop of `getSprintDetails`:
`issue.fields.status.name`, `issue.fields.issuetype.name` and the story-point
custom field `issue.fields.customfield_10016` (absent on many issues, hence
`Option`). -/
structure Issue where
  key : String
  status : String
  type : String
  storyPoints : Option ℚ
  deriving Repr, DecidableEq

/-- Effective story points of an issue:
`issue.fields.customfield_10016 || 0` in the source. -/
def issuePoints (i : Issue) : ℚ := i.storyPoints.getD 0

/-- The hard-coded done-status list of `getSprintDetails`:
`['Done', 'Closed', 'Resolved', 'Completed', 'Finalizado', 'Concluído']`. -/
def doneStatuses : List String :=
  ["Done", "Closed", "Resolved", "Completed", "Finalizado", "Concluído"]

/-- State of the aggregation loop: the two histograms (JavaScript objects,
modelled as insertion-ordered association lists) and the two point sums. -/
structure AggState where
  statusCounts : List (String × Nat)
  typeCounts : List (String × Nat)
  completedPoints : ℚ
  totalPoints : ℚ
  deriving Repr, DecidableEq

/-- `m[k] = (m[k] || 0) + 1` on a plain JavaScript object: increment an
existing key in place, otherwise append the key with count 1. -/
def bump (m : List (String × Nat)) (k : String) : List (String × Nat) :=
  match m with
  | [] => [(k, 1)]
  | (k', v) :: rest => if k' = k then (k', v + 1) :: rest else (k', v) :: bump rest k

/-- One iteration of the `for (const issue of issues)` loop in
`getSprintDetails`. -/
def processIssue (st : AggState) (issue : Issue) : AggState :=
  let statusCounts := bump st.statusCounts issue.status
  let typeCounts := bump st.typeCounts issue.type
  let storyPoints := issuePoints issue
  let totalPoints := st.totalPoints + storyPoints
  let completedPoints :=
    if doneStatuses.contains issue.status then st.completedPoints + storyPoints
    else st.completedPoints
  ⟨statusCounts, typeCounts, completedPoints, totalPoints⟩

/-- The aggregation loop of `getSprintDetails`, run from the all-zero initial
state. -/
def aggregate (issues : List Issue) : AggState :=
  List.foldl processIssue ⟨[], [], 0, 0⟩ issues

/-- The data `getSprintDetails` derives from the issue list (the `issues` and
`progress` parts of its return value). -/
structure SprintDetailsResult where
  byStatus : List (String × Nat)
  byType : List (String × Nat)
  completedPoints : ℚ
  totalPoints : ℚ
  percentComplete : ℤ
  deriving Repr, DecidableEq

/-- The issue-derived part of `getSprintDetails`:
`percentComplete: totalPoints > 0 ? Math.round((completedPoints / totalPoints) * 100) : 0`. -/
def getSprintDetails (issues : List Issue) : SprintDetailsResult :=
  let a := aggregate issues
  ⟨a.statusCounts, a.typeCounts, a.completedPoints, a.totalPoints,
    if 0 < a.totalPoints then round ((a.completedPoints / a.totalPoints) * 100) else 0⟩

/-- Sum of the counts stored in a histogram. -/
def sumValues (m : List (String × Nat)) : Nat := (m.map Prod.snd).sum

theorem sumValues_bump (m : List (String × Nat)) (k : String) :
    sumValues (bump m k) = sumValues m + 1 := by
  induction m with
  | nil => simp [bump, sumValues]
  | cons p rest ih =>
    obtain ⟨k', v⟩ := p
    by_cases h : k' = k <;> simp [bump, h, sumValues] at * <;> omega

theorem aggregate_go_statusCounts (issues : List Issue) :
    ∀ s : AggState,
      sumValues (List.foldl processIssue s issues).statusCounts =
        sumValues s.statusCounts + issues.length := by
  induction issues with
  | nil => intro s; simp
  | cons i rest ih =>
    intro s
    simp only [List.foldl_cons, List.length_cons, ih, processIssue, sumValues_bump]
    omega

theorem aggregate_go_typeCounts (issues : List Issue) :
    ∀ s : AggState,
      sumValues (List.foldl processIssue s issues).typeCounts =
        sumValues s.typeCounts + issues.length := by
  induction issues with
  | nil => intro s; simp
  | cons i rest ih =>
    intro s
    simp only [List.foldl_cons, List.length_cons, ih, processIssue, sumValues_bump]
    omega

theorem aggregate_go_points (issues : List Issue) :
    ∀ s : AggState,
      (List.foldl processIssue s issues).completedPoints =
        s.completedPoints +
          ((issues.filter fun i => doneStatuses.contains i.status).map issuePoints).sum ∧
      (List.foldl processIssue s issues).totalPoints =
        s.totalPoints + (issues.map issuePoints).sum := by
  induction issues with
  | nil => intro s; simp
  | cons i rest ih =>
    intro s
    obtain ⟨ihc, iht⟩ := ih (processIssue s i)
    constructor
    · rw [List.foldl_cons, ihc]
      by_cases h : i.status ∈ doneStatuses
      · simp [processIssue, List.filter_cons, h]
        ring
      · simp [processIssue, List.filter_cons, h]
    · rw [List.foldl_cons, iht]
      simp [processIssue]; ring

/-- A sprint as consumed by `getActiveSprint`: only the fields the resolver
reads.  `startDate` is the parsed timestamp in milliseconds
(`new Date(s.startDate).getTime()`), absent when the sprint has no start
date. -/
structure Sprint where
  id : Int
  name : String
  startDate : Option Int
  deriving Repr, DecidableEq

/-- The one question the runtime's sort (V8 TimSort on Node 18) asks the
comparator passed to `Array.prototype.sort` in `getActiveSprint`:
`comparator(b, a) < 0`, "must `b` be placed before `a`".  The comparator is
`(a, b) => { if (!a.startDate) return 1; if (!b.startDate) return -1;`
`return new Date(b.startDate).getTime() - new Date(a.startDate).getTime(); }`,
so with `b` as first and `a` as second argument the probe answers true exactly
when `b` is dated and `a` is undated or strictly older.  In particular for two
undated sprints the probe is false either way round: they behave as ties. -/
def sprintBefore (b a : Sprint) : Bool :=
  match b.startDate with
  | none => false
  | some tb =>
    match a.startDate with
    | none => true
    | some ta => ta < tb

/-- Merge step of the stable merge sort modelling `Array.prototype.sort`
(ECMAScript sort is required to be stable; V8 implements it with TimSort, a
merge sort).  As in TimSort's merge (and its binary-insertion runs), an
element of the right run is emitted ahead of the left head exactly when the
probe `comparator(right, left) < 0` answers true; otherwise the left head is
kept, so ties — including any pair of undated sprints — preserve the original
order.  A fuel argument keeps the recursion structural; the fallback for
exhausted fuel is never reached when the fuel is at least the combined
length. -/
def mergeFuel : Nat → List Sprint → List Sprint → List Sprint
  | 0, l, r => l ++ r
  | _ + 1, [], r => r
  | _ + 1, l, [] => l
  | n + 1, a :: l, b :: r =>
    if sprintBefore b a then b :: mergeFuel n (a :: l) r else a :: mergeFuel n l (b :: r)

/-- Merge two runs, with enough fuel for the recursion to complete. -/
def merge (l r : List Sprint) : List Sprint := mergeFuel (l.length + r.length) l r

/-- Top level of the merge sort modelling `Array.prototype.sort`, again with
structural fuel (one unit per halving suffices). -/
def mergeSortFuel : Nat → List Sprint → List Sprint
  | 0, l => l
  | n + 1, l =>
    if l.length ≤ 1 then l
    else
      merge (mergeSortFuel n (l.take (l.length / 2)))
        (mergeSortFuel n (l.drop (l.length / 2)))

/-- `resultRecent.values.sort(comparator)` in `getActiveSprint`. -/
def sortSprints (l : List Sprint) : List Sprint := mergeSortFuel l.length l

/-- The ordering the comparator is trying to realise, as a (total, transitive)
relation: `afterEq a b` says `a` started at or after `b`, where a sprint
without a start date counts as older than every other sprint. -/
def afterEq (a b : Sprint) : Prop :=
  match b.startDate with
  | none => True
  | some tb =>
    match a.startDate with
    | none => False
    | some ta => tb ≤ ta

theorem afterEq_refl (a : Sprint) : afterEq a a := by
  unfold afterEq
  rcases h : a.startDate with _ | t <;> simp [h]

theorem afterEq_trans {a b c : Sprint} (hab : afterEq a b) (hbc : afterEq b c) :
    afterEq a c := by
  unfold afterEq at *
  rcases hc : c.startDate with _ | tc <;> rcases hb : b.startDate with _ | tb <;>
    rcases ha : a.startDate with _ | ta <;> simp_all
  omega

theorem afterEq_of_before {a b : Sprint} (h : sprintBefore b a = true) : afterEq b a := by
  unfold sprintBefore at h
  unfold afterEq
  rcases hb : b.startDate with _ | tb <;> rcases ha : a.startDate with _ | ta <;> simp_all
  omega

theorem afterEq_of_not_before {a b : Sprint} (h : sprintBefore b a = false) : afterEq a b := by
  unfold sprintBefore at h
  unfold afterEq
  rcases hb : b.startDate with _ | tb
  · simp [hb]
  · rcases ha : a.startDate with _ | ta
    · simp [hb, ha] at h
    · simp [hb, ha] at h ⊢
      omega

theorem mergeFuel_perm (n : Nat) :
    ∀ l r : List Sprint, (mergeFuel n l r).Perm (l ++ r) := by
  induction n with
  | zero => intro l r; simp [mergeFuel]
  | succ n ih =>
    intro l r
    match l, r with
    | [], r => simp [mergeFuel]
    | a :: l, [] => simp [mergeFuel]
    | a :: l, b :: r =>
      rw [mergeFuel]
      by_cases h : sprintBefore b a = true
      · rw [if_pos h]
        refine List.Perm.trans (List.Perm.cons b (ih (a :: l) r)) ?_
        exact (List.perm_middle).symm
      · rw [if_neg h]
        exact List.Perm.cons a (ih l (b :: r))

theorem mem_mergeFuel {x : Sprint} {n : Nat} {l r : List Sprint} :
    x ∈ mergeFuel n l r ↔ x ∈ l ∨ x ∈ r := by
  rw [(mergeFuel_perm n l r).mem_iff, List.mem_append]

theorem pairwise_mergeFuel (n : Nat) :
    ∀ l r : List Sprint, l.length + r.length ≤ n →
      l.Pairwise afterEq → r.Pairwise afterEq →
      (mergeFuel n l r).Pairwise afterEq := by
  induction n with
  | zero =>
    intro l r hlen hl hr
    cases l with
    | nil =>
      cases r with
      | nil => simp [mergeFuel]
      | cons b r => simp at hlen
    | cons a l => simp at hlen
  | succ n ih =>
    intro l r hlen hl hr
    match l, r with
    | [], r => simpa [mergeFuel] using hr
    | a :: l, [] => simpa [mergeFuel] using hl
    | a :: l, b :: r =>
      rw [mergeFuel]
      simp only [List.length_cons] at hlen
      rw [List.pairwise_cons] at hl hr
      by_cases h : sprintBefore b a = true
      · rw [if_pos h]
        rw [List.pairwise_cons]
        refine ⟨?_, ih (a :: l) r (by simp; omega) (List.pairwise_cons.mpr hl) hr.2⟩
        intro x hx
        have hba : afterEq b a := afterEq_of_before h
        rcases mem_mergeFuel.mp hx with hxl | hxr
        · rcases List.mem_cons.mp hxl with rfl | hxl
          · exact hba
          · exact afterEq_trans hba (hl.1 x hxl)
        · exact hr.1 x hxr
      · rw [if_neg h]
        rw [List.pairwise_cons]
        refine ⟨?_, ih l (b :: r) (by simp; omega) hl.2 (List.pairwise_cons.mpr hr)⟩
        intro x hx
        have hab : afterEq a b := afterEq_of_not_before (Bool.not_eq_true _ ▸ h)
        rcases mem_mergeFuel.mp hx with hxl | hxr
        · exact hl.1 x hxl
        · rcases List.mem_cons.mp hxr with rfl | hxr
          · exact hab
          · exact afterEq_trans hab (hr.1 x hxr)

theorem mergeSortFuel_perm (n : Nat) :
    ∀ l : List Sprint, (mergeSortFuel n l).Perm l := by
  induction n with
  | zero => intro l; simp [mergeSortFuel]
  | succ n ih =>
    intro l
    rw [mergeSortFuel]
    by_cases h : l.length ≤ 1
    · rw [if_pos h]
    · rw [if_neg h]
      refine List.Perm.trans (mergeFuel_perm _ _ _) ?_
      refine List.Perm.trans (List.Perm.append (ih _) (ih _)) ?_
      rw [List.take_append_drop]

theorem mergeSortFuel_pairwise (n : Nat) :
    ∀ l : List Sprint, l.length ≤ n → (mergeSortFuel n l).Pairwise afterEq := by
  induction n with
  | zero =>
    intro l hlen
    interval_cases h : l.length
    · rw [List.length_eq_zero] at h
      subst h
      simp [mergeSortFuel]
  | succ n ih =>
    intro l hlen
    rw [mergeSortFuel]
    by_cases h : l.length ≤ 1
    · rw [if_pos h]
      match l, h with
      | [], _ => exact List.Pairwise.nil
      | [a], _ => simp
    · rw [if_neg h]
      have h2 : 2 ≤ l.length := by omega
      have hhalf : l.length / 2 < l.length := Nat.div_lt_self (by omega) (by omega)
      have hhalf1 : 1 ≤ l.length / 2 := by omega
      refine pairwise_mergeFuel _ _ _ le_rfl (ih _ ?_) (ih _ ?_)
      · simp
        omega
      · simp
        omega

theorem sortSprints_perm (l : List Sprint) : (sortSprints l).Perm l :=
  mergeSortFuel_perm l.length l

theorem sortSprints_pairwise (l : List Sprint) : (sortSprints l).Pairwise afterEq :=
  mergeSortFuel_pairwise l.length l le_rfl

/-- The head of the sorted sprint list is a most-recently-started sprint:
it is `afterEq`-above every element of the original list. -/
theorem sortSprints_head (l : List Sprint) (s : Sprint) (rest : List Sprint)
    (h : sortSprints l = s :: rest) : s ∈ l ∧ ∀ x ∈ l, afterEq s x := by
  have hperm := sortSprints_perm l
  rw [h] at hperm
  have hpw := sortSprints_pairwise l
  rw [h, List.pairwise_cons] at hpw
  constructor
  · exact hperm.mem_iff.mp (List.mem_cons_self s rest)
  · intro x hx
    rcases List.mem_cons.mp (hperm.mem_iff.mpr hx) with rfl | hx'
    · exact afterEq_refl x
    · exact hpw.1 x hx'

/-- JavaScript truthiness of an optional number: `undefined`, `0` (and `NaN`)
are falsy. -/
def jsTruthyInt (a : Option Int) : Bool :=
  match a with
  | none => false
  | some n => n != 0

/-- JavaScript `a || b` on optional numbers. -/
def jsOr (a b : Option Int) : Option Int := if jsTruthyInt a then a else b

/-- JavaScript whitespace accepted by `parseInt` (the common code points). -/
def jsWhitespace (c : Char) : Bool :=
  c = ' ' || c = '\t' || c = '\n' || c = '\r' || c = '\x0b' || c = '\x0c'

/-- Value of a decimal digit. -/
def digitVal (c : Char) : Nat := c.toNat - '0'.toNat

/-- Hexadecimal digit test. -/
def isHexDigit (c : Char) : Bool :=
  c.isDigit || ('a' ≤ c && c ≤ 'f') || ('A' ≤ c && c ≤ 'F')

/-- Value of a hexadecimal digit. -/
def hexVal (c : Char) : Nat :=
  if c.isDigit then digitVal c
  else if 'a' ≤ c && c ≤ 'f' then c.toNat - 'a'.toNat + 10
  else c.toNat - 'A'.toNat + 10

/-- Model of JavaScript `parseInt(s)` (radix argument omitted): skip leading
whitespace, read an optional sign, detect a `0x`/`0X` prefix, then take the
longest run of digits in the detected radix; `none` models the `NaN` result
when that run is empty.  (The float precision loss of very long digit strings
is outside the model.) -/
def parseIntJs (s : String) : Option Int :=
  let cs := s.data.dropWhile jsWhitespace
  let signed : Int × List Char :=
    match cs with
    | '-' :: rest => (-1, rest)
    | '+' :: rest => (1, rest)
    | _ => (1, cs)
  match signed.2 with
  | '0' :: 'x' :: rest =>
    let ds := rest.takeWhile isHexDigit
    if ds.isEmpty then none
    else some (signed.1 * (ds.foldl (fun a c => a * 16 + hexVal c) 0 : Nat))
  | '0' :: 'X' :: rest =>
    let ds := rest.takeWhile isHexDigit
    if ds.isEmpty then none
    else some (signed.1 * (ds.foldl (fun a c => a * 16 + hexVal c) 0 : Nat))
  | other =>
    let ds := other.takeWhile Char.isDigit
    if ds.isEmpty then none
    else some (signed.1 * (ds.foldl (fun a c => a * 10 + digitVal c) 0 : Nat))

/-- The `boardId` argument as it arrives at the Zod schema
(`z.union([z.number(), z.string().transform(...)])`, optional). -/
inductive BoardIdParam where
  | num (n : Int)
  | str (s : String)
  | missing
  deriving Repr, DecidableEq

/-- What the schema delivers to the tool handler: numbers pass through,
strings go through `parseInt` with `NaN` mapped to `undefined`, and a missing
argument stays `undefined`. -/
def parseBoardIdParam (p : BoardIdParam) : Option Int :=
  match p with
  | .num n => some n
  | .str s => parseIntJs s
  | .missing => none

/-- Error message thrown when no board can be found for the project. -/
def noBoardMsg (projectKey : String) : String :=
  "Não foi possível encontrar um board para o projeto " ++ projectKey ++
    ". Por favor, forneça um Board ID."

/-- Error message thrown when the board has no sprints at all. -/
def noSprintsMsg (targetBoardId : Int) : String :=
  "Não foram encontradas sprints para o quadro " ++ toString targetBoardId

/-- The `targetBoardId` resolution at the top of `getActiveSprint`:
`let targetBoardId = boardId || this.defaultBoardId;` followed by
`if (!targetBoardId) { ... getBoardsForProject ... boards.values[0].id ... }`.
A failing or empty board listing is replaced (inside the local `catch`) by the
fixed `noBoardMsg` error; the underlying failure text is dropped. -/
def resolveTargetBoard (boardId defaultBoardId : Option Int) (projectKey : String)
    (boardsForProject : Except String (List Int)) : Except String Int :=
  match jsOr boardId defaultBoardId with
  | some n =>
    if n = 0 then
      match boardsForProject with
      | .error _ => .error (noBoardMsg projectKey)
      | .ok [] => .error (noBoardMsg projectKey)
      | .ok (b :: _) => .ok b
    else .ok n
  | none =>
    match boardsForProject with
    | .error _ => .error (noBoardMsg projectKey)
    | .ok [] => .error (noBoardMsg projectKey)
    | .ok (b :: _) => .ok b

/-- `getActiveSprint`, with the three collaborator calls passed in as data:
the board listing for the project, the `state=active` sprint query and the
unfiltered sprint query (both indexed by the queried board id).  Errors of
the two sprint queries are wrapped by the inner `catch` as
`"Erro ao buscar sprint ativa: " ++ msg`; every error is then wrapped by the
outer `catch` as `"Não foi possível encontrar a sprint ativa: " ++ msg`. -/
def getActiveSprint (boardId defaultBoardId : Option Int) (projectKey : String)
    (boardsForProject : Except String (List Int))
    (activeSprintsOn : Int → Except String (List Sprint))
    (allSprintsOn : Int → Except String (List Sprint)) : Except String Sprint :=
  let attempt : Except String Sprint :=
    match resolveTargetBoard boardId defaultBoardId projectKey boardsForProject with
    | .error m => .error m
    | .ok target =>
      let inner : Except String Sprint :=
        match activeSprintsOn target with
        | .error m => .error m
        | .ok (s :: _) => .ok s
        | .ok [] =>
          match allSprintsOn target with
          | .error m => .error m
          | .ok allSprints =>
            if allSprints.isEmpty then .error (noSprintsMsg target)
            else
              match (sortSprints allSprints).head? with
              | some s => .ok s
              | none => .error (noSprintsMsg target)
      Except.mapError (fun m => "Erro ao buscar sprint ativa: " ++ m) inner
  Except.mapError (fun m => "Não foi possível encontrar a sprint ativa: " ++ m) attempt

/-- `getSprintIssues`: `searchJira` either fails (its message is logged and
the method returns `[]`) or returns a result whose `issues` field may be
absent (`result.issues || []`). -/
def getSprintIssues (searchResult : Except String (Option (List Issue))) : List Issue :=
  match searchResult with
  | .error _ => []
  | .ok r => r.getD []

/-- Milliseconds per day: `1000 * 60 * 60 * 24`. -/
def msPerDay : Int := 1000 * 60 * 60 * 24

/-- The numeric quantities computed by `buildSprintProgressPrompt`.
`percentTimeElapsed` and `burndownDifference` are `Option`s because the code
divides by `totalDays` without a guard: when `totalDays = 0` the JavaScript
result is `NaN` (or `-Infinity`), modelled as `none`. -/
structure VelocityProjection where
  totalDays : Int
  daysLeft : Int
  percentTimeElapsed : Option Int
  pointsPerDay : ℚ
  projectedCompletion : Int
  burndownDifference : Option Int
  deriving Repr, DecidableEq

/-- `totalDays = Math.floor((endDate - startDate) / (1000*60*60*24))` in
`buildSprintProgressPrompt`. -/
def totalDaysOf (startDate endDate : Int) : Int :=
  Int.fdiv (endDate - startDate) msPerDay

/-- `daysLeft = Math.max(0, Math.floor((endDate - today) / (1000*60*60*24)))`
in `buildSprintProgressPrompt`. -/
def daysLeftOf (endDate today : Int) : Int :=
  max 0 (Int.fdiv (endDate - today) msPerDay)

/-- The arithmetic of `buildSprintProgressPrompt`, with the sprint dates and
the clock (`new Date()`) passed in as timestamps and the progress snapshot as
`completedPoints`/`percentComplete`:
`percentTimeElapsed = Math.round(((totalDays - daysLeft) / totalDays) * 100)`
(`NaN`, modelled `none`, when `totalDays = 0`),
`pointsPerDay = completedPoints / (totalDays - daysLeft || 1)`,
`projectedCompletion = Math.round(pointsPerDay * totalDays)`,
`burndownDifference = percentComplete - percentTimeElapsed`. -/
def buildSprintProgress (startDate endDate today : Int)
    (completedPoints : ℚ) (percentComplete : Int) : VelocityProjection :=
  let totalDays : Int := totalDaysOf startDate endDate
  let daysLeft : Int := daysLeftOf endDate today
  let percentTimeElapsed : Option Int :=
    if totalDays = 0 then none
    else some (round ((((totalDays - daysLeft : Int) : ℚ) / ((totalDays : Int) : ℚ)) * 100))
  let elapsed : Int := totalDays - daysLeft
  let pointsPerDay : ℚ := completedPoints / (if elapsed = 0 then 1 else ((elapsed : Int) : ℚ))
  let projectedCompletion : Int := round (pointsPerDay * ((totalDays : Int) : ℚ))
  let burndownDifference : Option Int :=
    percentTimeElapsed.map (fun pte => percentComplete - pte)
  ⟨totalDays, daysLeft, percentTimeElapsed, pointsPerDay, projectedCompletion,
    burndownDifference⟩

/-- C1: for every list of issues, the aggregation of `getSprintDetails`
yields `percentComplete = round(100 * completedPoints / totalPoints)` when
`totalPoints > 0` and `percentComplete = 0` when `totalPoints = 0`; the empty
issue list yields all-zero status and type counts, zero completed and total
points, and `percentComplete = 0`. -/
theorem percentComplete_round_or_zero :
    (∀ issues : List Issue,
      (getSprintDetails issues).percentComplete =
        if 0 < (aggregate issues).totalPoints
        then round (100 * (aggregate issues).completedPoints / (aggregate issues).totalPoints)
        else 0) ∧
    aggregate [] = ⟨[], [], 0, 0⟩ ∧
    getSprintDetails [] = ⟨[], [], 0, 0, 0⟩ := by
  refine ⟨?_, rfl, rfl⟩
  intro issues
  show (if 0 < (aggregate issues).totalPoints
    then round (((aggregate issues).completedPoints / (aggregate issues).totalPoints) * 100)
    else 0) = _
  by_cases h : 0 < (aggregate issues).totalPoints
  · rw [if_pos h, if_pos h]
    congr 1
    ring
  · rw [if_neg h, if_neg h]

/-- C2: in `aggregate`, an issue's story points (0 when absent) are added to
`completedPoints` exactly when its status is one of the six done labels,
compared by exact case-sensitive string equality, while every issue's story
points are added to `totalPoints`. -/
theorem completedPoints_done_statuses_only :
    (∀ issues : List Issue,
      (aggregate issues).completedPoints =
        ((issues.filter fun i => doneStatuses.contains i.status).map issuePoints).sum ∧
      (aggregate issues).totalPoints = (issues.map issuePoints).sum) ∧
    (∀ st : String, doneStatuses.contains st = true ↔
      st = "Done" ∨ st = "Closed" ∨ st = "Resolved" ∨ st = "Completed" ∨
        st = "Finalizado" ∨ st = "Concluído") := by
  constructor
  · intro issues
    have h := aggregate_go_points issues ⟨[], [], 0, 0⟩
    simpa [aggregate] using h
  · intro st
    simp [doneStatuses]

/-- C4: every issue increments exactly one status bucket and one type bucket,
so both histograms of `aggregate` sum to the number of issues. -/
theorem counts_cover_issues (issues : List Issue) :
    sumValues (aggregate issues).statusCounts = issues.length ∧
    sumValues (aggregate issues).typeCounts = issues.length := by
  constructor
  · simpa [aggregate, sumValues] using aggregate_go_statusCounts issues ⟨[], [], 0, 0⟩
  · simpa [aggregate, sumValues] using aggregate_go_typeCounts issues ⟨[], [], 0, 0⟩

/-- C9: when every issue's story points are non-negative (absent counts as 0),
`completedPoints ≤ totalPoints` holds for the aggregate, because completed
points sum over a sub-population of the same issues. -/
theorem completedPoints_le_totalPoints (issues : List Issue)
    (h : ∀ i ∈ issues, 0 ≤ issuePoints i) :
    (aggregate issues).completedPoints ≤ (aggregate issues).totalPoints := by
  obtain ⟨hc, ht⟩ := aggregate_go_points issues ⟨[], [], 0, 0⟩
  rw [aggregate, hc, ht]
  show 0 + _ ≤ 0 + _
  rw [zero_add, zero_add]
  refine List.Sublist.sum_le_sum ?_ ?_
  · exact (List.filter_sublist issues).map issuePoints
  · intro a ha
    obtain ⟨i, hi, rfl⟩ := List.mem_map.mp ha
    exact h i hi

/-- Witness for C9 at a concrete issue list. -/
theorem completedPoints_le_totalPoints_witness :
    (∀ i ∈ [Issue.mk "K-1" "Done" "Story" (some 5),
            Issue.mk "K-2" "In Progress" "Bug" none], 0 ≤ issuePoints i) ∧
    (aggregate [Issue.mk "K-1" "Done" "Story" (some 5),
                Issue.mk "K-2" "In Progress" "Bug" none]).completedPoints ≤
      (aggregate [Issue.mk "K-1" "Done" "Story" (some 5),
                  Issue.mk "K-2" "In Progress" "Bug" none]).totalPoints :=
  ⟨by decide, completedPoints_le_totalPoints _ (by decide)⟩

/-- The undated sprint of the specification scenario. -/
def sprintSemData : Sprint := ⟨1, "Sprint sem data", none⟩

/-- The sprint dated 2024-01-01 of the specification scenario. -/
def sprintJaneiro : Sprint := ⟨2, "Sprint Janeiro", some 1704067200000⟩

/-- The sprint dated 2024-03-01 of the specification scenario. -/
def sprintMarco : Sprint := ⟨3, "Sprint Março", some 1709251200000⟩

/-- C3: when the active-sprint query returns no sprint and the unfiltered
sprint list is non-empty, `getActiveSprint` returns the head of that list
sorted by `startDate` descending with undated sprints last: the returned
sprint's start date is at least that of every dated sprint, and an undated
sprint is never returned while a dated one exists; on the scenario list
`[no date, 2024-01-01, 2024-03-01]` the 2024-03-01 sprint is returned. -/
theorem fallback_returns_most_recent :
    (∀ (boardId defaultBoardId : Option Int) (projectKey : String)
      (boardsForProject : Except String (List Int))
      (activeSprintsOn allSprintsOn : Int → Except String (List Sprint))
      (target : Int) (l : List Sprint),
      resolveTargetBoard boardId defaultBoardId projectKey boardsForProject =
        Except.ok target →
      activeSprintsOn target = Except.ok [] →
      allSprintsOn target = Except.ok l →
      l ≠ [] →
      ∃ s : Sprint,
        getActiveSprint boardId defaultBoardId projectKey boardsForProject
          activeSprintsOn allSprintsOn = Except.ok s ∧
        (sortSprints l).head? = some s ∧ s ∈ l ∧
        (∀ x ∈ l, ∀ d, x.startDate = some d → ∃ e, s.startDate = some e ∧ d ≤ e) ∧
        ((∃ x ∈ l, x.startDate ≠ none) → s.startDate ≠ none)) ∧
    getActiveSprint (some 7) none "PROJ" (Except.ok [])
      (fun _ => Except.ok []) (fun _ => Except.ok [sprintSemData, sprintJaneiro, sprintMarco]) =
      Except.ok sprintMarco := by
  constructor
  · intro boardId defaultBoardId projectKey boardsForProject activeSprintsOn allSprintsOn
      target l htarget hactive hall hne
    have hsne : sortSprints l ≠ [] := by
      intro h0
      exact hne (((h0 ▸ sortSprints_perm l).symm).eq_nil)
    rcases hsort : sortSprints l with _ | ⟨s, rest⟩
    · exact absurd hsort hsne
    obtain ⟨hmem, hall_after⟩ := sortSprints_head l s rest hsort
    refine ⟨s, ?_, rfl, hmem, ?_, ?_⟩
    · have hempty : l.isEmpty = false := by
        cases l
        · exact absurd rfl hne
        · rfl
      simp only [getActiveSprint, htarget, hactive, hall, hempty, hsort,
        Bool.false_eq_true, if_false, List.head?_cons, Except.mapError]
    · intro x hx d hd
      have hax := hall_after x hx
      unfold afterEq at hax
      rw [hd] at hax
      rcases hs : s.startDate with _ | e
      · rw [hs] at hax
        exact absurd hax not_false
      · rw [hs] at hax
        exact ⟨e, rfl, hax⟩
    · rintro ⟨x, hx, hxd⟩ hs0
      rcases hd : x.startDate with _ | d
      · exact hxd hd
      · have hax := hall_after x hx
        unfold afterEq at hax
        rw [hd, hs0] at hax
        exact hax
  · rfl

/-- Witness for C3: the general fallback statement applied to the
specification's three-sprint scenario. -/
theorem fallback_returns_most_recent_witness :
    ∃ s : Sprint,
      getActiveSprint (some 7) none "PROJ" (Except.ok [])
        (fun _ => Except.ok [])
        (fun _ => Except.ok [sprintSemData, sprintJaneiro, sprintMarco]) = Except.ok s ∧
      (sortSprints [sprintSemData, sprintJaneiro, sprintMarco]).head? = some s ∧
      s ∈ [sprintSemData, sprintJaneiro, sprintMarco] ∧
      (∀ x ∈ [sprintSemData, sprintJaneiro, sprintMarco],
        ∀ d, x.startDate = some d → ∃ e, s.startDate = some e ∧ d ≤ e) ∧
      ((∃ x ∈ [sprintSemData, sprintJaneiro, sprintMarco], x.startDate ≠ none) →
        s.startDate ≠ none) :=
  fallback_returns_most_recent.1 (some 7) none "PROJ" (Except.ok [])
    (fun _ => Except.ok [])
    (fun _ => Except.ok [sprintSemData, sprintJaneiro, sprintMarco]) 7
    [sprintSemData, sprintJaneiro, sprintMarco] rfl rfl rfl (by simp)

/-- C5 counterexample: for a sprint whose window lies ahead of the clock
(`daysLeft > totalDays`), `pointsPerDay` is not
`completedPoints / max(1, totalDays - daysLeft)`: the source divides by
`totalDays - daysLeft || 1`, which keeps a negative difference as divisor
(`30 / (1 - 5) = -7.5`, not `30 / max(1, -4) = 30`). -/
theorem pointsPerDay_guard_counterexample :
    (buildSprintProgress 0 msPerDay (-(4 * msPerDay)) 30 0).pointsPerDay ≠
      30 / ((max 1 ((buildSprintProgress 0 msPerDay (-(4 * msPerDay)) 30 0).totalDays -
        (buildSprintProgress 0 msPerDay (-(4 * msPerDay)) 30 0).daysLeft) : Int) : ℚ) := by
  have h1 : totalDaysOf 0 msPerDay = 1 := by decide
  have h2 : daysLeftOf msPerDay (-(4 * msPerDay)) = 5 := by decide
  have ht : (buildSprintProgress 0 msPerDay (-(4 * msPerDay)) 30 0).totalDays = 1 := by decide
  have hd : (buildSprintProgress 0 msPerDay (-(4 * msPerDay)) 30 0).daysLeft = 5 := by decide
  have hp : (buildSprintProgress 0 msPerDay (-(4 * msPerDay)) 30 0).pointsPerDay =
      30 / ((-4 : Int) : ℚ) := by
    simp only [buildSprintProgress, h1, h2]
    norm_num
  rw [hp, ht, hd]
  have hm : max (1 : Int) (1 - 5) = 1 := by decide
  rw [hm]
  norm_num

/-- C5 amended: `pointsPerDay` divides `completedPoints` by
`totalDays - daysLeft` when that difference is non-zero and by `1` when it is
zero (this coincides with `max(1, totalDays - daysLeft)` whenever
`daysLeft ≤ totalDays`); `projectedCompletion = round(pointsPerDay *
totalDays)`; and whenever `totalDays ≠ 0`,
`burndownDelta = percentComplete - percentTimeElapsed`. -/
theorem velocity_projection_formulas (startDate endDate today : Int)
    (completedPoints : ℚ) (percentComplete : Int) :
    (buildSprintProgress startDate endDate today completedPoints percentComplete).totalDays =
      totalDaysOf startDate endDate ∧
    (buildSprintProgress startDate endDate today completedPoints percentComplete).daysLeft =
      daysLeftOf endDate today ∧
    (buildSprintProgress startDate endDate today completedPoints percentComplete).pointsPerDay =
      completedPoints /
        (if totalDaysOf startDate endDate - daysLeftOf endDate today = 0 then 1
         else ((totalDaysOf startDate endDate - daysLeftOf endDate today : Int) : ℚ)) ∧
    (daysLeftOf endDate today ≤ totalDaysOf startDate endDate →
      (buildSprintProgress startDate endDate today completedPoints percentComplete).pointsPerDay =
        completedPoints /
          ((max 1 (totalDaysOf startDate endDate - daysLeftOf endDate today) : Int) : ℚ)) ∧
    (buildSprintProgress startDate endDate today completedPoints percentComplete).projectedCompletion =
      round ((buildSprintProgress startDate endDate today completedPoints
        percentComplete).pointsPerDay * ((totalDaysOf startDate endDate : Int) : ℚ)) ∧
    (totalDaysOf startDate endDate ≠ 0 →
      (buildSprintProgress startDate endDate today completedPoints
          percentComplete).burndownDifference =
        some (percentComplete -
          round ((((totalDaysOf startDate endDate - daysLeftOf endDate today : Int) : ℚ) /
            ((totalDaysOf startDate endDate : Int) : ℚ)) * 100))) := by
  refine ⟨rfl, rfl, rfl, ?_, rfl, ?_⟩
  · intro hle
    show completedPoints / _ = _
    congr 1
    by_cases h0 : totalDaysOf startDate endDate - daysLeftOf endDate today = 0
    · rw [if_pos h0, h0]
      rfl
    · rw [if_neg h0]
      have h1 : max 1 (totalDaysOf startDate endDate - daysLeftOf endDate today) =
          totalDaysOf startDate endDate - daysLeftOf endDate today := by
        omega
      rw [h1]
  · intro h0
    show Option.map _ (if totalDaysOf startDate endDate = 0 then none else _) = _
    rw [if_neg h0]
    rfl

/-- Witness for C5: the specification scenario `totalDays = 10, daysLeft = 4,
completedPoints = 30` gives `percentTimeElapsed = 60`, `pointsPerDay = 5`,
`projectedCompletion = 50`, and `burndownDelta = percentComplete - 60` (here
`80 - 60`); the `max(1, …)` reading agrees because `daysLeft ≤ totalDays`. -/
theorem velocity_projection_formulas_witness :
    daysLeftOf (10 * msPerDay) (6 * msPerDay) ≤ totalDaysOf 0 (10 * msPerDay) ∧
    totalDaysOf 0 (10 * msPerDay) ≠ 0 ∧
    (buildSprintProgress 0 (10 * msPerDay) (6 * msPerDay) 30 80).totalDays = 10 ∧
    (buildSprintProgress 0 (10 * msPerDay) (6 * msPerDay) 30 80).daysLeft = 4 ∧
    (buildSprintProgress 0 (10 * msPerDay) (6 * msPerDay) 30 80).percentTimeElapsed = some 60 ∧
    (buildSprintProgress 0 (10 * msPerDay) (6 * msPerDay) 30 80).pointsPerDay = 5 ∧
    (buildSprintProgress 0 (10 * msPerDay) (6 * msPerDay) 30 80).projectedCompletion = 50 ∧
    (buildSprintProgress 0 (10 * msPerDay) (6 * msPerDay) 30 80).burndownDifference =
      some (80 - 60) ∧
    (buildSprintProgress 0 (10 * msPerDay) (6 * msPerDay) 30 80).pointsPerDay =
      30 / ((max 1 (totalDaysOf 0 (10 * msPerDay) - daysLeftOf (10 * msPerDay) (6 * msPerDay)) :
        Int) : ℚ) :=
  ⟨by decide, by decide, by decide, by decide,
    by
      have h1 : totalDaysOf 0 (10 * msPerDay) = 10 := by decide
      have h2 : daysLeftOf (10 * msPerDay) (6 * msPerDay) = 4 := by decide
      simp only [buildSprintProgress, h1, h2]
      norm_num [round_eq],
    by
      have h1 : totalDaysOf 0 (10 * msPerDay) = 10 := by decide
      have h2 : daysLeftOf (10 * msPerDay) (6 * msPerDay) = 4 := by decide
      simp only [buildSprintProgress, h1, h2]
      norm_num,
    by
      have h1 : totalDaysOf 0 (10 * msPerDay) = 10 := by decide
      have h2 : daysLeftOf (10 * msPerDay) (6 * msPerDay) = 4 := by decide
      simp only [buildSprintProgress, h1, h2]
      norm_num [round_eq],
    by
      have h1 : totalDaysOf 0 (10 * msPerDay) = 10 := by decide
      have h2 : daysLeftOf (10 * msPerDay) (6 * msPerDay) = 4 := by decide
      simp only [buildSprintProgress, h1, h2]
      norm_num [round_eq],
    (velocity_projection_formulas 0 (10 * msPerDay) (6 * msPerDay) 30 80).2.2.2.1 (by decide)⟩

/-- C6: at a zero-length sprint window (`endDate` less than one day after
`startDate`, so `totalDays = 0`) the source divides by `totalDays` with no
guard: `percentTimeElapsed` and with it `burndownDifference` are `NaN`
(modelled `none`), not a safe fallback number. -/
theorem degenerate_sprint_percentTime_nan :
    (buildSprintProgress 0 0 0 0 0).totalDays = 0 ∧
    (buildSprintProgress 0 0 0 0 0).percentTimeElapsed = none ∧
    (buildSprintProgress 0 0 0 0 0).burndownDifference = none :=
  ⟨rfl, rfl, rfl⟩

theorem undated_mergeFuel (n : Nat) :
    ∀ l r : List Sprint,
      (mergeFuel n l r).filter (fun s => s.startDate.isNone) =
        l.filter (fun s => s.startDate.isNone) ++ r.filter (fun s => s.startDate.isNone) := by
  induction n with
  | zero => intro l r; simp [mergeFuel]
  | succ n ih =>
    intro l r
    match l, r with
    | [], r => simp [mergeFuel]
    | a :: l, [] => simp [mergeFuel]
    | a :: l, b :: r =>
      rw [mergeFuel]
      by_cases h : sprintBefore b a = true
      · rw [if_pos h]
        have hb : b.startDate.isNone = false := by
          unfold sprintBefore at h
          rcases hb0 : b.startDate with _ | tb
          · rw [hb0] at h
            simp at h
          · simp [hb0]
        simp only [List.filter_cons, hb, Bool.false_eq_true, if_false, ih]
      · rw [if_neg h]
        by_cases ha : a.startDate.isNone = true
        · simp only [List.filter_cons, ha, if_true, ih, List.cons_append]
        · simp only [List.filter_cons, ha, Bool.false_eq_true, if_false, ih]

theorem undated_mergeSortFuel (n : Nat) :
    ∀ l : List Sprint,
      (mergeSortFuel n l).filter (fun s => s.startDate.isNone) =
        l.filter (fun s => s.startDate.isNone) := by
  induction n with
  | zero => intro l; rfl
  | succ n ih =>
    intro l
    rw [mergeSortFuel]
    by_cases h : l.length ≤ 1
    · rw [if_pos h]
    · rw [if_neg h]
      unfold merge
      rw [undated_mergeFuel, ih, ih, ← List.filter_append, List.take_append_drop]

/-- C7: the tier-4 fallback sort is stable with respect to undated sprints:
for every sprint list, the subsequence of sprints lacking a `startDate` in
the sorted result equals that of the input, so two or more undated sprints
keep their original relative order.  (The runtime's TimSort only ever probes
`comparator(x, y) < 0`, which is false in both orders for an undated pair, so
undated sprints behave as ties of a stable sort.)  Concretely, an undated
sprint before and an undated sprint after a dated one stay in that order
behind the dated sprint. -/
theorem sort_keeps_undated_order :
    (∀ l : List Sprint,
      (sortSprints l).filter (fun s => s.startDate.isNone) =
        l.filter (fun s => s.startDate.isNone)) ∧
    sortSprints [Sprint.mk 1 "A" none, Sprint.mk 2 "B" (some 5), Sprint.mk 3 "C" none] =
      [Sprint.mk 2 "B" (some 5), Sprint.mk 1 "A" none, Sprint.mk 3 "C" none] :=
  ⟨fun l => undated_mergeSortFuel l.length l, rfl⟩

/-- C8 counterexample: a failed issue search does not raise a wrapped error;
`getSprintIssues` catches the failure and returns the empty list,
indistinguishable from an empty successful search. -/
theorem issue_search_failure_swallowed :
    getSprintIssues (Except.error "ECONNREFUSED") = [] ∧
    getSprintIssues (Except.error "ECONNREFUSED") = getSprintIssues (Except.ok (some [])) :=
  ⟨rfl, rfl⟩

/-- C8 amended: a failed sprint query is wrapped and rethrown with the
underlying message preserved; a failed board listing is rethrown with a fixed
guidance message that drops the underlying text; a failed issue search is
swallowed and yields the empty list. -/
theorem collaborator_failure_propagation :
    (∀ m : String, getSprintIssues (Except.error m) = []) ∧
    (∀ (m : String) (n : Int), n ≠ 0 →
      ∀ (defaultBoardId : Option Int) (projectKey : String)
        (boardsForProject : Except String (List Int))
        (allSprintsOn : Int → Except String (List Sprint)),
        getActiveSprint (some n) defaultBoardId projectKey boardsForProject
          (fun _ => Except.error m) allSprintsOn =
          Except.error
            ("Não foi possível encontrar a sprint ativa: Erro ao buscar sprint ativa: " ++ m)) ∧
    (∀ (m : String) (projectKey : String)
      (activeSprintsOn allSprintsOn : Int → Except String (List Sprint)),
      getActiveSprint none none projectKey (Except.error m) activeSprintsOn allSprintsOn =
        Except.error ("Não foi possível encontrar a sprint ativa: " ++ noBoardMsg projectKey)) := by
  refine ⟨fun m => rfl, ?_, fun m projectKey activeSprintsOn allSprintsOn => rfl⟩
  intro m n hn defaultBoardId projectKey boardsForProject allSprintsOn
  have ht : jsTruthyInt (some n) = true := by
    simp [jsTruthyInt, hn]
  simp only [getActiveSprint, resolveTargetBoard, jsOr, ht, if_true, if_neg hn,
    Except.mapError]
  rw [← String.append_assoc]
  rfl

/-- Witness for C8's amended statement at concrete failing collaborators. -/
theorem collaborator_failure_propagation_witness :
    getSprintIssues (Except.error "timeout") = [] ∧
    getActiveSprint (some 9) none "PROJ" (Except.ok [])
      (fun _ => Except.error "timeout") (fun _ => Except.ok []) =
      Except.error
        ("Não foi possível encontrar a sprint ativa: Erro ao buscar sprint ativa: " ++
          "timeout") ∧
    getActiveSprint none none "PROJ" (Except.error "ECONNRESET")
      (fun _ => Except.ok []) (fun _ => Except.ok []) =
      Except.error ("Não foi possível encontrar a sprint ativa: " ++ noBoardMsg "PROJ") :=
  ⟨collaborator_failure_propagation.1 "timeout",
    collaborator_failure_propagation.2.1 "timeout" 9 (by decide) none "PROJ"
      (Except.ok []) (fun _ => Except.ok []),
    collaborator_failure_propagation.2.2 "ECONNRESET" "PROJ"
      (fun _ => Except.ok []) (fun _ => Except.ok [])⟩

/-- C10: calling a tool with `boardId = 0` or with a string that `parseInt`
cannot parse behaves exactly as omitting `boardId`: the resolution falls back
to the configured default board and then to project-board discovery, and the
falsy value 0 is never used as the queried board (as long as discovery only
yields non-zero board ids, boards with id 0 are never queried at all). -/
theorem boardId_zero_behaves_as_missing :
    (∀ (defaultBoardId : Option Int) (projectKey : String)
      (boardsForProject : Except String (List Int))
      (activeSprintsOn allSprintsOn : Int → Except String (List Sprint)),
      getActiveSprint (parseBoardIdParam (BoardIdParam.num 0)) defaultBoardId projectKey
        boardsForProject activeSprintsOn allSprintsOn =
      getActiveSprint (parseBoardIdParam BoardIdParam.missing) defaultBoardId projectKey
        boardsForProject activeSprintsOn allSprintsOn) ∧
    (∀ s : String, parseIntJs s = none →
      ∀ (defaultBoardId : Option Int) (projectKey : String)
        (boardsForProject : Except String (List Int))
        (activeSprintsOn allSprintsOn : Int → Except String (List Sprint)),
        getActiveSprint (parseBoardIdParam (BoardIdParam.str s)) defaultBoardId projectKey
          boardsForProject activeSprintsOn allSprintsOn =
        getActiveSprint (parseBoardIdParam BoardIdParam.missing) defaultBoardId projectKey
          boardsForProject activeSprintsOn allSprintsOn) ∧
    (∀ (defaultBoardId : Option Int) (projectKey : String) (bs : List Int),
      (∀ x ∈ bs, x ≠ 0) →
      resolveTargetBoard (some 0) defaultBoardId projectKey (Except.ok bs) ≠ Except.ok 0 ∧
      resolveTargetBoard none defaultBoardId projectKey (Except.ok bs) ≠ Except.ok 0) := by
  refine ⟨fun _ _ _ _ _ => rfl, ?_, ?_⟩
  · intro s hs defaultBoardId projectKey boardsForProject activeSprintsOn allSprintsOn
    simp only [parseBoardIdParam, hs]
  · intro defaultBoardId projectKey bs hbs
    have hdiscover : ∀ p : String,
        (match (Except.ok bs : Except String (List Int)) with
          | .error _ => Except.error (noBoardMsg p)
          | .ok [] => Except.error (noBoardMsg p)
          | .ok (b :: _) => Except.ok b) ≠ Except.ok (0 : Int) := by
      intro p
      match bs, hbs with
      | [], _ => simp
      | b :: rest, hbs =>
        simp only [ne_eq, Except.ok.injEq]
        exact hbs b (List.mem_cons_self b rest)
    constructor
    · show (match jsOr (some 0) defaultBoardId with
        | some n => if n = 0 then _ else Except.ok n
        | none => _) ≠ Except.ok 0
      have h0 : jsOr (some 0) defaultBoardId = defaultBoardId := rfl
      rw [h0]
      rcases defaultBoardId with _ | k
      · exact hdiscover projectKey
      · by_cases hk : k = 0
        · subst hk
          simpa using hdiscover projectKey
        · simp only [if_neg hk, ne_eq, Except.ok.injEq]
          exact hk
    · show (match jsOr none defaultBoardId with
        | some n => if n = 0 then _ else Except.ok n
        | none => _) ≠ Except.ok 0
      have h0 : jsOr none defaultBoardId = defaultBoardId := rfl
      rw [h0]
      rcases defaultBoardId with _ | k
      · exact hdiscover projectKey
      · by_cases hk : k = 0
        · subst hk
          simpa using hdiscover projectKey
        · simp only [if_neg hk, ne_eq, Except.ok.injEq]
          exact hk

/-- Witness for C10 at concrete inputs, including the unparseable string
`"abc"` and a discovery list with the single non-zero board 4. -/
theorem boardId_zero_behaves_as_missing_witness :
    (getActiveSprint (parseBoardIdParam (BoardIdParam.num 0)) (some 3) "PROJ" (Except.ok [4])
        (fun _ => Except.ok []) (fun _ => Except.ok []) =
      getActiveSprint (parseBoardIdParam BoardIdParam.missing) (some 3) "PROJ" (Except.ok [4])
        (fun _ => Except.ok []) (fun _ => Except.ok [])) ∧
    parseIntJs "abc" = none ∧
    (getActiveSprint (parseBoardIdParam (BoardIdParam.str "abc")) (some 3) "PROJ"
        (Except.ok [4]) (fun _ => Except.ok []) (fun _ => Except.ok []) =
      getActiveSprint (parseBoardIdParam BoardIdParam.missing) (some 3) "PROJ"
        (Except.ok [4]) (fun _ => Except.ok []) (fun _ => Except.ok [])) ∧
    resolveTargetBoard (some 0) none "PROJ" (Except.ok [4]) ≠ Except.ok 0 ∧
    resolveTargetBoard none none "PROJ" (Except.ok [4]) ≠ Except.ok 0 :=
  ⟨boardId_zero_behaves_as_missing.1 (some 3) "PROJ" (Except.ok [4])
      (fun _ => Except.ok []) (fun _ => Except.ok []),
    by decide,
    boardId_zero_behaves_as_missing.2.1 "abc" (by decide) (some 3) "PROJ" (Except.ok [4])
      (fun _ => Except.ok []) (fun _ => Except.ok []),
    (boardId_zero_behaves_as_missing.2.2 none "PROJ" [4] (by decide)).1,
    (boardId_zero_behaves_as_missing.2.2 none "PROJ" [4] (by decide)).2⟩
